import Mathlib

/-!
Shallow embedding of the Flash-Sku inventory reservation and order lifecycle
core (Django backend, `apps/orders` and `apps/activities`).

Conventions of the embedding:
* times are `Nat` (seconds); prices are `Nat` (cents; the source uses `Decimal`
  values that are only multiplied, so `Nat` is faithful);
* database ids are `Nat`; in the external Go message a field value `0` models a
  missing / falsy field (the source checks presence with Python truthiness);
* each Celery task / model method becomes a pure function from the relevant
  database state to a result value together with the successor state; the
  per-activity `select_for_update` row lock serializes all mutations of one
  activity, so a sequential small-step model is faithful for a single activity;
* a raised exception inside `transaction.atomic()` rolls the transaction back,
  which the model renders as returning the unchanged state.
-/

namespace FlashSku

/-- Final deadline window of `Order.save`: `timedelta(minutes=30)`, in seconds. -/
def paymentWindow : Nat := 30 * 60

/-- Activity status choices of `SeckillActivity.STATUS_CHOICES`. -/
inductive AStatus where
  | pending
  | active
  | ended
  | cancelled
deriving DecidableEq, Repr

/-- Order status choices of `Order.STATUS_CHOICES`. -/
inductive OStatus where
  | pendingPayment
  | paid
  | cancelled
  | refunded
deriving DecidableEq, Repr

/-- Row of `activities.SeckillActivity` (the fields the core reads or writes;
`product_name` stands for `activity.product.name`, the snapshot source). -/
structure Activity where
  id : Nat
  product_name : String
  start_time : Nat
  end_time : Nat
  original_price : Nat
  seckill_price : Nat
  total_stock : Nat
  available_stock : Nat
  status : AStatus
deriving DecidableEq, Repr

/-- `SeckillActivity.clean`: `full_clean` validation run by `save`.
`start_time < end_time`, `available_stock ≤ total_stock`, and — because the
source guards the price comparison with Python truthiness of both prices —
`seckill_price < original_price` only when both prices are nonzero. -/
def Activity.full_clean (a : Activity) : Bool :=
  decide (a.start_time < a.end_time) &&
  decide (a.available_stock ≤ a.total_stock) &&
  (a.seckill_price == 0 || a.original_price == 0 ||
    decide (a.seckill_price < a.original_price))

/-- `SeckillActivity.update_status`: recompute the cached status from the
clock and the stock; `cancelled` is sticky. -/
def Activity.update_status (now : Nat) (a : Activity) : Activity :=
  if a.status = .cancelled then a
  else if now < a.start_time then { a with status := .pending }
  else if now ≤ a.end_time then
    if 0 < a.available_stock then { a with status := .active }
    else { a with status := .ended }
  else { a with status := .ended }

/-- `SeckillActivity.save` on an existing row: `full_clean` (raises on
violation, modelled as `none`, which aborts the enclosing transaction),
then `update_status`, then the write. -/
def Activity.save (now : Nat) (a : Activity) : Option Activity :=
  if a.full_clean then some (a.update_status now) else none

/-- `SeckillActivity.is_active`. -/
def Activity.is_active (now : Nat) (a : Activity) : Bool :=
  a.status == .active &&
  decide (a.start_time ≤ now) && decide (now ≤ a.end_time) &&
  decide (0 < a.available_stock)

/-- Row of `orders.Order`. -/
structure Order where
  id : Nat
  user_id : Nat
  activity_id : Nat
  product_name : String
  seckill_price : Nat
  quantity : Nat
  total_amount : Nat
  status : OStatus
  payment_deadline : Option Nat
  paid_at : Option Nat
  cancelled_at : Option Nat
  cancel_reason : String
deriving DecidableEq, Repr

/-- `Order.save`: recomputes `total_amount = seckill_price * quantity`, and for
a new row (`not self.pk`) in `pending_payment` sets the payment deadline to
`now + 30 minutes`. -/
def Order.save (now : Nat) (isNew : Bool) (o : Order) : Order :=
  let o := { o with total_amount := o.seckill_price * o.quantity }
  if isNew && o.status == .pendingPayment then
    { o with payment_deadline := some (now + paymentWindow) }
  else o

/-- `Order.can_pay`: pending, with a deadline set, strictly before it. -/
def Order.can_pay (now : Nat) (o : Order) : Bool :=
  o.status == .pendingPayment &&
  (match o.payment_deadline with
   | some d => decide (now < d)
   | none => false)

/-- `Order.can_cancel`: only `pending_payment` may be cancelled. -/
def Order.can_cancel (o : Order) : Bool :=
  o.status == .pendingPayment

/-- `Order.is_expired`: pending, with a deadline set, strictly after it. -/
def Order.is_expired (now : Nat) (o : Order) : Bool :=
  o.status == .pendingPayment &&
  (match o.payment_deadline with
   | some d => decide (d < now)
   | none => false)

/-- `Order.mark_paid`: guarded by `can_pay`; on success sets `paid`, records
`paid_at`, clears the deadline and saves; otherwise returns `False` without
touching the row. -/
def Order.mark_paid (now : Nat) (o : Order) : Bool × Order :=
  if o.can_pay now then
    (true, Order.save now false
      { o with status := .paid, paid_at := some now, payment_deadline := none })
  else (false, o)

/-- Arguments of a queued `rollback_stock.delay(activity_id, quantity, order_id)`
call. -/
structure RollbackRequest where
  activity_id : Nat
  quantity : Nat
  order_id : Nat
deriving DecidableEq, Repr

/-- `Order.cancel_order` as written in `apps/orders/models.py`.  After the
`can_cancel` guard, the first statement of the `try` block reads the name
`SeckillActivity`, which is never imported into `apps.orders.models` (the
foreign key uses the string form `'activities.SeckillActivity'` only), so at
run time the lookup raises `NameError`.  The `except Exception` branch then
enqueues `rollback_stock.delay(self.activity_id, self.quantity, self.id)` and
returns `False`; the transaction is rolled back, leaving the rows unchanged.
The status update and clamped stock restore written further down the `try`
block are unreachable. -/
def Order.cancel_order (reason : String) (o : Order) :
    Bool × Order × List RollbackRequest :=
  if !o.can_cancel then (false, o, [])
  else
    let _ := reason
    (false, o, [⟨o.activity_id, o.quantity, o.id⟩])

/-- Database state visible to the core, restricted to one activity (each
operation locks and mutates a single activity row, so states of different
activities never interact).  `rollback_queue` is the list of pending
`rollback_stock` Celery deliveries. -/
structure State where
  users : List Nat
  activity : Activity
  orders : List Order
  next_order_id : Nat
  rollback_queue : List RollbackRequest
deriving DecidableEq, Repr

/-- A fresh activity ledger: `available_stock = total_stock`, no orders. -/
def initState (users : List Nat) (a : Activity) : State :=
  { users := users, activity := a, orders := [], next_order_id := 1,
    rollback_queue := [] }

/-- Result dictionary of the `create_seckill_order` task. -/
structure TaskResult where
  success : Bool
  error : Option String
  order_id : Option Nat
  total_amount : Option Nat
  payment_deadline : Option Nat
deriving DecidableEq, Repr

/-- `Order.objects.create(...)` inside the reservation / intake tasks: the
snapshot row built from the activity, then `Order.save` on a new row. -/
def newOrder (now : Nat) (oid user_id : Nat) (a : Activity) (quantity : Nat) :
    Order :=
  Order.save now true
    { id := oid, user_id := user_id, activity_id := a.id,
      product_name := a.product_name, seckill_price := a.seckill_price,
      quantity := quantity, total_amount := 0, status := .pendingPayment,
      payment_deadline := none, paid_at := none, cancelled_at := none,
      cancel_reason := "" }

/-- Celery task `create_seckill_order(user_id, activity_id, quantity)`:
one `transaction.atomic()` unit holding `select_for_update` on the activity.
Checks, in source order: existence of user and activity, `is_active`, stock,
an existing `(user, activity)` order (any status); then decrements the stock,
saves the activity and inserts the order.  A failed `full_clean` raises,
rolling the unit back. -/
def createSeckillOrder (now user_id activity_id quantity : Nat) (s : State) :
    TaskResult × State :=
  if ¬ (user_id ∈ s.users ∧ activity_id = s.activity.id) then
    (⟨false, some "用户或活动不存在", none, none, none⟩, s)
  else if !s.activity.is_active now then
    (⟨false, some "活动未激活", none, none, none⟩, s)
  else if s.activity.available_stock < quantity then
    (⟨false, some "库存不足", none, none, none⟩, s)
  else
    match s.orders.find? (fun o => o.user_id == user_id &&
        o.activity_id == s.activity.id) with
    | some existing =>
      (⟨false, some "您已经购买过该活动商品", some existing.id, none, none⟩, s)
    | none =>
      match Activity.save now
          { s.activity with
              available_stock := s.activity.available_stock - quantity } with
      | none => (⟨false, some "系统异常", none, none, none⟩, s)
      | some a =>
        (⟨true, none,
          some (newOrder now s.next_order_id user_id s.activity quantity).id,
          some (newOrder now s.next_order_id user_id s.activity
            quantity).total_amount,
          (newOrder now s.next_order_id user_id s.activity
            quantity).payment_deadline⟩,
         { s with activity := a,
                  orders := s.orders ++
                    [newOrder now s.next_order_id user_id s.activity quantity],
                  next_order_id := s.next_order_id + 1 })

/-- Reservation-request message consumed from the Go admission service.  A
field value `0` models a missing (falsy) entry; `quantity` defaults to `1` and
`price` to `0` on the Python side, so both are plain fields here. -/
structure GoOrderMessage where
  order_id : Nat
  user_id : Nat
  activity_id : Nat
  quantity : Nat
  price : Nat
deriving DecidableEq, Repr

/-- Result dictionary of `process_seckill_order_from_go`. -/
structure GoResult where
  success : Bool
  error : Option String
  order_id : Option Nat
  go_order_id : Nat
deriving DecidableEq, Repr

/-- Celery task `process_seckill_order_from_go(order_message)`: presence check
on `order_id`/`user_id`/`activity_id`, lookup of user and activity, duplicate
check (acknowledged as success, quoting the stored order id), then direct
`Order.objects.create` priced at `activity.seckill_price` — the message's
`price` is extracted but never used, and the activity row is never written:
no stock check and no stock decrement happen on this path. -/
def processSeckillOrderFromGo (now : Nat) (msg : GoOrderMessage) (s : State) :
    GoResult × State :=
  if msg.order_id = 0 ∨ msg.user_id = 0 ∨ msg.activity_id = 0 then
    (⟨false, some "订单消息参数不完整", none, msg.order_id⟩, s)
  else if ¬ (msg.user_id ∈ s.users ∧ msg.activity_id = s.activity.id) then
    (⟨false, some "用户或活动不存在", none, msg.order_id⟩, s)
  else
    match s.orders.find? (fun o => o.user_id == msg.user_id &&
        o.activity_id == s.activity.id) with
    | some existing => (⟨true, none, some existing.id, msg.order_id⟩, s)
    | none =>
      (⟨true, none,
        some (newOrder now s.next_order_id msg.user_id s.activity
          msg.quantity).id, msg.order_id⟩,
       { s with
          orders := s.orders ++
            [newOrder now s.next_order_id msg.user_id s.activity msg.quantity],
          next_order_id := s.next_order_id + 1 })

/-- Write back an updated order row under its id (the ORM `save` of a row
fetched with `get(id=...)`). -/
def updateOrderRow (oid : Nat) (o' : Order) (l : List Order) : List Order :=
  l.map (fun x => if x.id == oid then o' else x)

/-- `Order.cancel_order` lifted to the database state: locate the row, run the
method, persist its (unchanged) row and append any enqueued rollback task.
Used by the cancellation API view and by the timeout tasks. -/
def cancelOrderOp (reason : String) (oid : Nat) (s : State) : Bool × State :=
  match s.orders.find? (fun x => x.id == oid) with
  | none => (false, s)
  | some o =>
    ((o.cancel_order reason).1,
     { s with
        orders := updateOrderRow oid (o.cancel_order reason).2.1 s.orders,
        rollback_queue := s.rollback_queue ++ (o.cancel_order reason).2.2 })

/-- Outcomes of `cancel_order_task`, one per distinct return dictionary. -/
inductive CancelTaskOutcome where
  | orderMissing
  | statusNotCancellable
  | notYetExpired
  | cancelledOk
  | cancelFailed
deriving DecidableEq, Repr

/-- Celery task `cancel_order_task(order_id)` — the action armed at
reservation time with `eta = payment_deadline`: re-checks, at fire time, that
the order still exists, is still `pending_payment`, and is actually expired,
and only then calls `cancel_order(reason='支付超时自动取消')`. -/
def cancelOrderTask (now oid : Nat) (s : State) : CancelTaskOutcome × State :=
  match s.orders.find? (fun x => x.id == oid) with
  | none => (.orderMissing, s)
  | some o =>
    if o.status ≠ .pendingPayment then (.statusNotCancellable, s)
    else if !o.is_expired now then (.notYetExpired, s)
    else
      (if (cancelOrderOp "支付超时自动取消" oid s).1 then .cancelledOk
       else .cancelFailed,
       (cancelOrderOp "支付超时自动取消" oid s).2)

/-- Counters reported by the `cancel_expired_orders` sweep. -/
structure SweepCounters where
  cancelled_count : Nat
  failed_count : Nat
  skipped_count : Nat
deriving DecidableEq, Repr

/-- One iteration of the `cancel_expired_orders` loop: re-fetch the order
under lock, re-check status and expiry (counting a mismatch as skipped, not
failed), then attempt the timeout cancellation. -/
def sweepStep (now : Nat) (acc : SweepCounters × State) (oid : Nat) :
    SweepCounters × State :=
  match acc.2.orders.find? (fun x => x.id == oid) with
  | none => ({ acc.1 with skipped_count := acc.1.skipped_count + 1 }, acc.2)
  | some o =>
    if o.status ≠ .pendingPayment then
      ({ acc.1 with skipped_count := acc.1.skipped_count + 1 }, acc.2)
    else if !o.is_expired now then
      ({ acc.1 with skipped_count := acc.1.skipped_count + 1 }, acc.2)
    else
      if (cancelOrderOp "支付超时自动取消" oid acc.2).1 then
        ({ acc.1 with cancelled_count := acc.1.cancelled_count + 1 },
         (cancelOrderOp "支付超时自动取消" oid acc.2).2)
      else
        ({ acc.1 with failed_count := acc.1.failed_count + 1 },
         (cancelOrderOp "支付超时自动取消" oid acc.2).2)

/-- Celery task `cancel_expired_orders`: processes a fetched batch of order
ids (the query result may be stale relative to the per-order locked re-fetch,
which is why every check is repeated inside the loop). -/
def cancelExpiredOrders (now : Nat) (batch : List Nat) (s : State) :
    SweepCounters × State :=
  batch.foldl (sweepStep now) (⟨0, 0, 0⟩, s)

/-- Result dictionary of the `rollback_stock` task. -/
structure RollbackResult where
  success : Bool
  error : Option String
  requested_quantity : Nat
  actual_rollback : Nat
  original_stock : Nat
  current_stock : Nat
deriving DecidableEq, Repr

/-- Celery task `rollback_stock(activity_id, quantity, order_id)`: validates
its arguments (`> 0`; a `Nat` argument is invalid exactly when it is `0`),
locks the activity, computes `new_stock = original + quantity` clamped to
`total_stock`, and saves.  `order_id` is used only for logging and is not
modelled. -/
def rollback_stock (activity_id quantity now : Nat) (a : Activity) :
    RollbackResult × Activity :=
  if activity_id = 0 then
    (⟨false, some "无效的活动ID", quantity, 0, a.available_stock,
      a.available_stock⟩, a)
  else if quantity = 0 then
    (⟨false, some "无效的回滚数量", quantity, 0, a.available_stock,
      a.available_stock⟩, a)
  else if activity_id ≠ a.id then
    (⟨false, some "活动不存在", quantity, 0, a.available_stock,
      a.available_stock⟩, a)
  else
    match Activity.save now
        { a with available_stock :=
            if a.total_stock < a.available_stock + quantity then a.total_stock
            else a.available_stock + quantity } with
    | none =>
      (⟨false, some "系统异常", quantity, 0, a.available_stock,
        a.available_stock⟩, a)
    | some a' =>
      (⟨true, none, quantity,
        (if a.total_stock < a.available_stock + quantity then
          a.total_stock - a.available_stock
         else quantity),
        a.available_stock,
        (if a.total_stock < a.available_stock + quantity then a.total_stock
         else a.available_stock + quantity)⟩, a')

/-- `rollback_stock` re-delivered `n` times with the same arguments. -/
def iterateRollback (activity_id quantity now : Nat) :
    Nat → Activity → Activity
  | 0, a => a
  | n + 1, a =>
    iterateRollback activity_id quantity now n
      (rollback_stock activity_id quantity now a).2

/-- `Order.mark_paid` lifted to the database state (the mark-paid trigger of
the out-of-scope payment collaborator). -/
def markPaidOp (now oid : Nat) (s : State) : Bool × State :=
  match s.orders.find? (fun x => x.id == oid) with
  | none => (false, s)
  | some o =>
    let r := o.mark_paid now
    (r.1, { s with orders := updateOrderRow oid r.2 s.orders })

/-- `sold_quantity` of the consistency check: `Sum('quantity')` over the
activity's `paid` orders. -/
def soldQuantity (aid : Nat) (orders : List Order) : Nat :=
  ((orders.filter (fun o => o.activity_id == aid && o.status == .paid)).map
    (fun o => o.quantity)).sum

/-- `pending_quantity` of the consistency check: `Sum('quantity')` over the
activity's `pending_payment` orders. -/
def pendingQuantity (aid : Nat) (orders : List Order) : Nat :=
  ((orders.filter (fun o => o.activity_id == aid &&
    o.status == .pendingPayment)).map (fun o => o.quantity)).sum

/-- `theoretical_stock = total_stock - sold_quantity - pending_quantity`,
computed over `Int` (Python subtraction can go negative). -/
def theoreticalStock (a : Activity) (orders : List Order) : Int :=
  (a.total_stock : Int) - soldQuantity a.id orders - pendingQuantity a.id orders

/-- One entry of the audit report (`check_stock_consistency` task and the
management command build the same dictionary). -/
structure Inconsistency where
  activity_id : Nat
  total_stock : Nat
  sold_quantity : Nat
  pending_quantity : Nat
  theoretical_stock : Int
  actual_stock : Nat
  difference : Int
deriving DecidableEq, Repr

/-- `Command._check_activity_consistency` (identical arithmetic to the body of
the `check_stock_consistency` task loop): report exactly when the theoretical
stock differs from `available_stock`, with `difference = actual - theoretical`. -/
def checkActivityConsistency (a : Activity) (orders : List Order) :
    Option Inconsistency :=
  let sold := soldQuantity a.id orders
  let pending := pendingQuantity a.id orders
  let theoretical := theoreticalStock a orders
  let actual := a.available_stock
  if theoretical = (actual : Int) then none
  else
    some ⟨a.id, a.total_stock, sold, pending, theoretical, actual,
      (actual : Int) - theoretical⟩

/-- Celery task `check_stock_consistency`: audit every activity whose stored
status is `active`. -/
def checkStockConsistency (activities : List Activity) (orders : List Order) :
    List Inconsistency :=
  (activities.filter (fun a => a.status == .active)).filterMap
    (fun a => checkActivityConsistency a orders)

/-- `Command._fix_activity_stock`: assign the reported theoretical stock and
save inside `transaction.atomic()`.  `available_stock` is a
`PositiveIntegerField`, so a negative theoretical value (and any other
`full_clean` violation) raises inside the transaction; the command catches the
exception and the stored row stays unchanged. -/
def fixActivityStock (now : Nat) (a : Activity) (inc : Inconsistency) :
    Activity :=
  if 0 ≤ inc.theoretical_stock then
    match Activity.save now
        { a with available_stock := inc.theoretical_stock.toNat } with
    | some a' => a'
    | none => a
  else a

/-- `Command._check_single_activity`: detect, then correct only when `--fix`
was passed and `--dry-run` was not. -/
def checkAndMaybeFix (now : Nat) (fix dry_run : Bool) (a : Activity)
    (orders : List Order) : Option Inconsistency × Activity :=
  match checkActivityConsistency a orders with
  | none => (none, a)
  | some inc =>
    (some inc, if fix && !dry_run then fixActivityStock now a inc else a)

/-- Lock discipline of the reservation unit: `create_seckill_order` fetches
the activity with `SeckillActivity.objects.select_for_update()`. -/
def createSeckillOrderLocksActivityRow : Bool := true

/-- Lock discipline of the audit fix: `Command._fix_activity_stock` runs in a
bare `transaction.atomic()` block on an activity fetched earlier with a plain
`SeckillActivity.objects.get(...)` — no `select_for_update` row lock. -/
def fixActivityStockLocksActivityRow : Bool := false

/-- The operations that can touch one activity's ledger and order rows. -/
inductive Op where
  | reserve (now user_id activity_id quantity : Nat)
  | intake (now : Nat) (msg : GoOrderMessage)
  | markPaid (now oid : Nat)
  | cancel (reason : String) (oid : Nat)
  | timeoutTask (now oid : Nat)
  | sweep (now : Nat) (batch : List Nat)

/-- Whether an operation is an external-intake delivery. -/
def Op.isIntake : Op → Bool
  | .intake _ _ => true
  | _ => false

/-- Apply one operation to the database state. -/
def applyOp (s : State) : Op → State
  | .reserve now u aid q => (createSeckillOrder now u aid q s).2
  | .intake now msg => (processSeckillOrderFromGo now msg s).2
  | .markPaid now oid => (markPaidOp now oid s).2
  | .cancel reason oid => (cancelOrderOp reason oid s).2
  | .timeoutTask now oid => (cancelOrderTask now oid s).2
  | .sweep now batch => (cancelExpiredOrders now batch s).2

/-- Run a sequence of operations. -/
def runOps (s : State) (ops : List Op) : State :=
  ops.foldl applyOp s

/-- Contribution of one order to the outstanding-claims total: its quantity
unless it is cancelled. -/
def contrib (o : Order) : Nat :=
  if o.status = .cancelled then 0 else o.quantity

/-- Sum of quantities over the non-cancelled orders in the store. -/
def nonCancelledSum : List Order → Nat
  | [] => 0
  | o :: t => contrib o + nonCancelledSum t

/-- Ledger invariant tying the order store to the activity row: the stock is
conserved (outstanding non-cancelled claims plus remaining stock stay within
`N`), order ids are below the id counter, and ids are pairwise distinct. -/
def Inv (N : Nat) (s : State) : Prop :=
  s.activity.total_stock = N ∧
  nonCancelledSum s.orders + s.activity.available_stock ≤ N ∧
  (∀ i ∈ s.orders.map (fun x => x.id), i < s.next_order_id) ∧
  (s.orders.map (fun x => x.id)).Nodup

/-- Concrete activity with a single unit of stock, mid-window. -/
def actOne : Activity :=
  { id := 1, product_name := "widget", start_time := 0, end_time := 1000,
    original_price := 200, seckill_price := 100, total_stock := 1,
    available_stock := 1, status := .active }

/-- Concrete activity with five units of stock, mid-window. -/
def actFive : Activity :=
  { id := 1, product_name := "widget", start_time := 0, end_time := 1000,
    original_price := 200, seckill_price := 100, total_stock := 5,
    available_stock := 5, status := .active }

/-- Concrete pending order against `actFive`, deadline 100. -/
def ordPending : Order :=
  { id := 1, user_id := 1, activity_id := 1, product_name := "widget",
    seckill_price := 100, quantity := 2, total_amount := 200,
    status := .pendingPayment, payment_deadline := some 100, paid_at := none,
    cancelled_at := none, cancel_reason := "" }

/-- Concrete paid order against `actFive`. -/
def ordPaid : Order :=
  { id := 2, user_id := 2, activity_id := 1, product_name := "widget",
    seckill_price := 100, quantity := 1, total_amount := 100,
    status := .paid, payment_deadline := none, paid_at := some 50,
    cancelled_at := none, cancel_reason := "" }

/-- Concrete state in which user 1 already holds an order on the activity. -/
def stDup : State :=
  { users := [1], activity := actFive, orders := [ordPending],
    next_order_id := 2, rollback_queue := [] }

/-- Concrete state with one pending and one paid order on the activity.
Note `available_stock` is still 5, so the audit arithmetic reports drift. -/
def stTwo : State :=
  { users := [1, 2], activity := actFive, orders := [ordPending, ordPaid],
    next_order_id := 3, rollback_queue := [] }

theorem Activity.update_status_shape (now : Nat) (a : Activity) :
    ∃ st, a.update_status now = { a with status := st } := by
  unfold Activity.update_status
  split
  · exact ⟨a.status, rfl⟩
  · split
    · exact ⟨.pending, rfl⟩
    · split
      · split
        · exact ⟨.active, rfl⟩
        · exact ⟨.ended, rfl⟩
      · exact ⟨.ended, rfl⟩

theorem Activity.save_shape (now : Nat) (a a' : Activity)
    (h : a.save now = some a') : ∃ st, a' = { a with status := st } := by
  unfold Activity.save at h
  split at h
  · injection h with h'
    obtain ⟨st, hst⟩ := Activity.update_status_shape now a
    exact ⟨st, h' ▸ hst⟩
  · cases h

theorem nonCancelledSum_append (l₁ l₂ : List Order) :
    nonCancelledSum (l₁ ++ l₂) = nonCancelledSum l₁ + nonCancelledSum l₂ := by
  induction l₁ with
  | nil => simp [nonCancelledSum]
  | cons o t ih =>
    show contrib o + nonCancelledSum (t ++ l₂) =
      contrib o + nonCancelledSum t + nonCancelledSum l₂
    rw [ih]
    omega

theorem updateOrderRow_cons (oid : Nat) (o' y : Order) (t : List Order) :
    updateOrderRow oid o' (y :: t) =
      (if y.id == oid then o' else y) :: updateOrderRow oid o' t := rfl

theorem updateOrderRow_of_no_match (oid : Nat) (o' : Order) (l : List Order)
    (h : ∀ x ∈ l, (x.id == oid) = false) : updateOrderRow oid o' l = l := by
  induction l with
  | nil => rfl
  | cons y t ih =>
    have hy := h y (List.mem_cons_self y t)
    have ht : ∀ x ∈ t, (x.id == oid) = false :=
      fun x hx => h x (List.mem_cons_of_mem y hx)
    rw [updateOrderRow_cons, if_neg (by simp [hy]), ih ht]

theorem updateOrderRow_find_spec (l : List Order) (oid : Nat) (o o' : Order)
    (hnd : (l.map (fun x => x.id)).Nodup)
    (hf : l.find? (fun x => x.id == oid) = some o)
    (hid : o'.id = o.id) (hc : contrib o' = contrib o) :
    nonCancelledSum (updateOrderRow oid o' l) = nonCancelledSum l ∧
    (updateOrderRow oid o' l).map (fun x => x.id) = l.map (fun x => x.id) := by
  induction l with
  | nil => simp [List.find?] at hf
  | cons y t ih =>
    rw [List.map_cons, List.nodup_cons] at hnd
    cases hy : y.id == oid with
    | true =>
      have hoy : y = o := by
        simp only [List.find?, hy] at hf
        exact Option.some_inj.mp hf
      subst hoy
      have hoid : y.id = oid := by simpa using hy
      have ht : ∀ x ∈ t, (x.id == oid) = false := by
        intro x hx
        have hne : x.id ≠ oid := by
          intro hcontra
          apply hnd.1
          rw [hoid, ← hcontra]
          exact List.mem_map_of_mem (fun z => z.id) hx
        simpa using hne
      have htid := updateOrderRow_of_no_match oid o' t ht
      refine ⟨?_, ?_⟩
      · rw [updateOrderRow_cons, if_pos hy, htid]
        show contrib o' + nonCancelledSum t = contrib y + nonCancelledSum t
        rw [hc]
      · rw [updateOrderRow_cons, if_pos hy, htid, List.map_cons, List.map_cons,
          hid]
    | false =>
      have hf' : t.find? (fun x => x.id == oid) = some o := by
        simpa only [List.find?, hy] using hf
      obtain ⟨ihs, ihm⟩ := ih hnd.2 hf'
      refine ⟨?_, ?_⟩
      · rw [updateOrderRow_cons, if_neg (by simp [hy])]
        show contrib y + nonCancelledSum (updateOrderRow oid o' t) =
          contrib y + nonCancelledSum t
        rw [ihs]
      · rw [updateOrderRow_cons, if_neg (by simp [hy]), List.map_cons,
          List.map_cons, ihm]

theorem Order.can_pay_iff (now : Nat) (o : Order) :
    o.can_pay now = true ↔
      o.status = .pendingPayment ∧
        ∃ d, o.payment_deadline = some d ∧ now < d := by
  unfold Order.can_pay
  cases hd : o.payment_deadline with
  | none => simp [hd]
  | some d => simp [hd, Bool.and_eq_true, beq_iff_eq, decide_eq_true_eq]

theorem Order.is_expired_iff (now : Nat) (o : Order) :
    o.is_expired now = true ↔
      o.status = .pendingPayment ∧
        ∃ d, o.payment_deadline = some d ∧ d < now := by
  unfold Order.is_expired
  cases hd : o.payment_deadline with
  | none => simp [hd]
  | some d => simp [hd, Bool.and_eq_true, beq_iff_eq, decide_eq_true_eq]

theorem mark_paid_preserves (now : Nat) (o : Order) :
    contrib (o.mark_paid now).2 = contrib o ∧ (o.mark_paid now).2.id = o.id := by
  unfold Order.mark_paid
  cases hc : o.can_pay now with
  | false => simp
  | true =>
    have hst : o.status = .pendingPayment := ((Order.can_pay_iff now o).mp hc).1
    simp [Order.save, contrib, hst]

theorem cancel_order_spec (reason : String) (o : Order) :
    o.cancel_order reason =
      (false, o,
        if o.can_cancel then [⟨o.activity_id, o.quantity, o.id⟩] else []) := by
  unfold Order.cancel_order
  cases h : o.can_cancel <;> simp [h]

theorem newOrder_fields (now oid uid : Nat) (a : Activity) (q : Nat) :
    (newOrder now oid uid a q).id = oid ∧
    (newOrder now oid uid a q).quantity = q ∧
    (newOrder now oid uid a q).status = .pendingPayment ∧
    (newOrder now oid uid a q).seckill_price = a.seckill_price ∧
    (newOrder now oid uid a q).user_id = uid ∧
    (newOrder now oid uid a q).activity_id = a.id ∧
    (newOrder now oid uid a q).total_amount = a.seckill_price * q ∧
    (newOrder now oid uid a q).payment_deadline = some (now + paymentWindow) :=
  ⟨rfl, rfl, rfl, rfl, rfl, rfl, rfl, rfl⟩

theorem inv_cancelOrderOp (N : Nat) (reason : String) (oid : Nat) (s : State)
    (h : Inv N s) : Inv N (cancelOrderOp reason oid s).2 := by
  unfold cancelOrderOp
  cases hf : s.orders.find? (fun x => x.id == oid) with
  | none => simpa using h
  | some o =>
    obtain ⟨hN, hsum, hlt, hnd⟩ := h
    have hco := cancel_order_spec reason o
    obtain ⟨hs', hm'⟩ :=
      updateOrderRow_find_spec s.orders oid o ((o.cancel_order reason).2.1)
        hnd hf (by rw [hco]) (by rw [hco])
    refine ⟨hN, ?_, ?_, ?_⟩
    · simpa [hs'] using hsum
    · simpa [hm'] using hlt
    · simpa [hm'] using hnd

theorem inv_markPaidOp (N now oid : Nat) (s : State) (h : Inv N s) :
    Inv N (markPaidOp now oid s).2 := by
  unfold markPaidOp
  cases hf : s.orders.find? (fun x => x.id == oid) with
  | none => simpa using h
  | some o =>
    obtain ⟨hN, hsum, hlt, hnd⟩ := h
    obtain ⟨hcq, hcid⟩ := mark_paid_preserves now o
    obtain ⟨hs', hm'⟩ :=
      updateOrderRow_find_spec s.orders oid o ((o.mark_paid now).2)
        hnd hf hcid hcq
    refine ⟨hN, ?_, ?_, ?_⟩
    · simpa [hs'] using hsum
    · simpa [hm'] using hlt
    · simpa [hm'] using hnd

theorem inv_createSeckillOrder (N now u aid q : Nat) (s : State)
    (h : Inv N s) : Inv N (createSeckillOrder now u aid q s).2 := by
  unfold createSeckillOrder
  split
  · simpa using h
  split
  · simpa using h
  split
  · simpa using h
  case _ hexists hactive hstock =>
  cases hf : s.orders.find? (fun o => o.user_id == u &&
      o.activity_id == s.activity.id) with
  | some existing => simpa using h
  | none =>
    cases hsave : Activity.save now
        { s.activity with
            available_stock := s.activity.available_stock - q } with
    | none => simpa using h
    | some a' =>
      obtain ⟨hN, hsum, hlt, hnd⟩ := h
      obtain ⟨st, hst⟩ := Activity.save_shape now _ a' hsave
      have havail : a'.available_stock = s.activity.available_stock - q := by
        rw [hst]
      have htot : a'.total_stock = s.activity.total_stock := by rw [hst]
      show Inv N
        { s with activity := a',
                 orders := s.orders ++
                   [newOrder now s.next_order_id u s.activity q],
                 next_order_id := s.next_order_id + 1 }
      have h1 : nonCancelledSum [newOrder now s.next_order_id u s.activity q] =
          q := rfl
      have h2 : (newOrder now s.next_order_id u s.activity q).id =
          s.next_order_id := rfl
      refine ⟨?_, ?_, ?_, ?_⟩
      · show a'.total_stock = N
        rw [htot, hN]
      · show nonCancelledSum (s.orders ++
          [newOrder now s.next_order_id u s.activity q]) +
          a'.available_stock ≤ N
        rw [nonCancelledSum_append, havail, h1]
        omega
      · show ∀ i ∈ ((s.orders ++
          [newOrder now s.next_order_id u s.activity q]).map (fun x => x.id)),
          i < s.next_order_id + 1
        intro i hi
        rw [List.map_append] at hi
        rcases List.mem_append.mp hi with hi | hi
        · have := hlt i hi
          omega
        · simp only [List.map_cons, List.map_nil, List.mem_singleton] at hi
          rw [hi, h2]
          omega
      · show ((s.orders ++
          [newOrder now s.next_order_id u s.activity q]).map
            (fun x => x.id)).Nodup
        rw [List.map_append, List.nodup_append]
        refine ⟨hnd, by simp, ?_⟩
        intro i hi hj
        simp only [List.map_cons, List.map_nil, List.mem_singleton] at hj
        rw [hj, h2] at hi
        have := hlt _ hi
        omega

theorem inv_cancelOrderTask (N now oid : Nat) (s : State) (h : Inv N s) :
    Inv N (cancelOrderTask now oid s).2 := by
  unfold cancelOrderTask
  cases hf : s.orders.find? (fun x => x.id == oid) with
  | none => exact h
  | some o =>
    by_cases h1 : o.status ≠ OStatus.pendingPayment
    · simp only [if_pos h1]
      exact h
    · simp only [if_neg h1]
      by_cases h2 : (!o.is_expired now) = true
      · simp only [if_pos h2]
        exact h
      · simp only [if_neg h2]
        exact inv_cancelOrderOp N "支付超时自动取消" oid s h

theorem inv_sweepStep (N now oid : Nat) (acc : SweepCounters × State)
    (h : Inv N acc.2) : Inv N (sweepStep now acc oid).2 := by
  unfold sweepStep
  cases hf : acc.2.orders.find? (fun x => x.id == oid) with
  | none => exact h
  | some o =>
    by_cases h1 : o.status ≠ OStatus.pendingPayment
    · simp only [if_pos h1]
      exact h
    · simp only [if_neg h1]
      by_cases h2 : (!o.is_expired now) = true
      · simp only [if_pos h2]
        exact h
      · simp only [if_neg h2]
        by_cases h3 : (cancelOrderOp "支付超时自动取消" oid acc.2).1 = true
        · simp only [if_pos h3]
          exact inv_cancelOrderOp N "支付超时自动取消" oid acc.2 h
        · simp only [if_neg h3]
          exact inv_cancelOrderOp N "支付超时自动取消" oid acc.2 h

theorem inv_cancelExpiredOrders (N now : Nat) (batch : List Nat)
    (acc : SweepCounters × State) (h : Inv N acc.2) :
    Inv N (batch.foldl (sweepStep now) acc).2 := by
  induction batch generalizing acc with
  | nil => exact h
  | cons oid rest ih =>
    rw [List.foldl_cons]
    exact ih _ (inv_sweepStep N now oid acc h)

theorem inv_applyOp (N : Nat) (s : State) (op : Op) (h : Inv N s)
    (hni : op.isIntake = false) : Inv N (applyOp s op) := by
  cases op with
  | reserve now u aid q => exact inv_createSeckillOrder N now u aid q s h
  | intake now msg => simp [Op.isIntake] at hni
  | markPaid now oid => exact inv_markPaidOp N now oid s h
  | cancel reason oid => exact inv_cancelOrderOp N reason oid s h
  | timeoutTask now oid => exact inv_cancelOrderTask N now oid s h
  | sweep now batch => exact inv_cancelExpiredOrders N now batch (⟨0, 0, 0⟩, s) h

theorem inv_runOps (N : Nat) (s : State) (ops : List Op) (h : Inv N s)
    (hni : ∀ op ∈ ops, op.isIntake = false) : Inv N (runOps s ops) := by
  induction ops generalizing s with
  | nil => simpa [runOps] using h
  | cons op rest ih =>
    rw [runOps, List.foldl_cons]
    exact ih (applyOp s op)
      (inv_applyOp N s op h (hni op (List.mem_cons_self op rest)))
      (fun x hx => hni x (List.mem_cons_of_mem op hx))

theorem updateOrderRow_self (l : List Order) (oid : Nat) (o : Order)
    (hnd : (l.map (fun x => x.id)).Nodup)
    (hf : l.find? (fun x => x.id == oid) = some o) :
    updateOrderRow oid o l = l := by
  induction l with
  | nil => simp [List.find?] at hf
  | cons y t ih =>
    rw [List.map_cons, List.nodup_cons] at hnd
    cases hy : y.id == oid with
    | true =>
      have hoy : y = o := by
        simp only [List.find?, hy] at hf
        exact Option.some_inj.mp hf
      have hoid : y.id = oid := by simpa using hy
      have ht : ∀ x ∈ t, (x.id == oid) = false := by
        intro x hx
        have hne : x.id ≠ oid := by
          intro hcontra
          apply hnd.1
          rw [hoid, ← hcontra]
          exact List.mem_map_of_mem (fun z => z.id) hx
        simpa using hne
      rw [updateOrderRow_cons, if_pos hy, updateOrderRow_of_no_match oid o t ht,
        hoy]
    | false =>
      have hf' : t.find? (fun x => x.id == oid) = some o := by
        simpa only [List.find?, hy] using hf
      rw [updateOrderRow_cons, if_neg (by simp [hy]), ih hnd.2 hf']

theorem rollback_stock_step (q now : Nat) (a : Activity)
    (hid0 : a.id ≠ 0) (hq : q ≠ 0)
    (hse : a.start_time < a.end_time)
    (hpr : a.seckill_price = 0 ∨ a.original_price = 0 ∨
      a.seckill_price < a.original_price) :
    (rollback_stock a.id q now a).2.available_stock =
      min (a.available_stock + q) a.total_stock ∧
    (rollback_stock a.id q now a).2.total_stock = a.total_stock ∧
    (rollback_stock a.id q now a).2.id = a.id ∧
    (rollback_stock a.id q now a).2.start_time = a.start_time ∧
    (rollback_stock a.id q now a).2.end_time = a.end_time ∧
    (rollback_stock a.id q now a).2.seckill_price = a.seckill_price ∧
    (rollback_stock a.id q now a).2.original_price = a.original_price := by
  have hns : (if a.total_stock < a.available_stock + q then a.total_stock
      else a.available_stock + q) ≤ a.total_stock := by
    split <;> omega
  have hclean : Activity.full_clean
      { a with available_stock :=
          if a.total_stock < a.available_stock + q then a.total_stock
          else a.available_stock + q } = true := by
    unfold Activity.full_clean
    rcases hpr with h | h | h <;> simp [hse, hns, h]
  have hsave : Activity.save now
      { a with available_stock :=
          if a.total_stock < a.available_stock + q then a.total_stock
          else a.available_stock + q } =
      some (Activity.update_status now
        { a with available_stock :=
            if a.total_stock < a.available_stock + q then a.total_stock
            else a.available_stock + q }) := by
    unfold Activity.save
    rw [if_pos hclean]
  obtain ⟨st, hst⟩ := Activity.update_status_shape now
    { a with available_stock :=
        if a.total_stock < a.available_stock + q then a.total_stock
        else a.available_stock + q }
  unfold rollback_stock
  rw [if_neg hid0, if_neg hq, if_neg (fun h => h rfl), hsave, hst]
  refine ⟨?_, rfl, rfl, rfl, rfl, rfl, rfl⟩
  show (if a.total_stock < a.available_stock + q then a.total_stock
    else a.available_stock + q) = min (a.available_stock + q) a.total_stock
  split <;> omega

/-- Claim C1, counterexample: the claim quantifies over sequences that include
intake processing, but `process_seckill_order_from_go` creates an order
without checking or decrementing the stock.  Two intake deliveries by
different users against an activity with `totalStock = 1` leave two
non-cancelled orders of one unit each, so their sum is 2 > 1. -/
theorem c1_intake_breaks_stock_bound :
    Op.isIntake (Op.intake 10 ⟨41, 1, 1, 1, 99⟩) = true ∧
    (initState [1, 2] actOne).activity.total_stock = 1 ∧
    ¬ (nonCancelledSum (runOps (initState [1, 2] actOne)
        [Op.intake 10 ⟨41, 1, 1, 1, 99⟩,
         Op.intake 11 ⟨42, 2, 1, 1, 99⟩]).orders ≤
      (initState [1, 2] actOne).activity.total_stock) := by
  decide

/-- Claim C1 (amended): for every sequence of `create_seckill_order`
reservations, mark-paid transitions, and cancellation operations
(`cancel_order`, `cancel_order_task`, `cancel_expired_orders`) — intake
processing via `process_seckill_order_from_go` excluded — against one activity
that starts with `availableStock = totalStock = N`, the sum of quantities
across all non-cancelled orders never exceeds `N`. -/
theorem c1_stock_bound_without_intake (N : Nat) (a : Activity)
    (users : List Nat) (ops : List Op)
    (hT : a.total_stock = N) (hA : a.available_stock = N)
    (hni : ∀ op ∈ ops, op.isIntake = false) :
    nonCancelledSum (runOps (initState users a) ops).orders ≤ N := by
  have hInv : Inv N (initState users a) := by
    refine ⟨hT, ?_, ?_, ?_⟩
    · show nonCancelledSum [] + a.available_stock ≤ N
      rw [hA]
      show 0 + N ≤ N
      omega
    · intro i hi
      simp [initState] at hi
    · show (([] : List Order).map (fun x => x.id)).Nodup
      simp
  obtain ⟨-, hsum, -, -⟩ := inv_runOps N (initState users a) ops hInv hni
  omega

/-- Witness for C1 (amended) at a concrete run: reserve two units, mark them
paid, attempt a user cancellation and run the timeout sweep. -/
theorem c1_stock_bound_without_intake_witness :
    (∀ op ∈ ([Op.reserve 10 1 1 2, Op.markPaid 20 1,
        Op.cancel "用户主动取消" 1, Op.sweep 30 [1]] : List Op),
      op.isIntake = false) ∧
    nonCancelledSum (runOps (initState [1] actFive)
      [Op.reserve 10 1 1 2, Op.markPaid 20 1, Op.cancel "用户主动取消" 1,
       Op.sweep 30 [1]]).orders ≤ 5 :=
  ⟨by decide,
   c1_stock_bound_without_intake 5 actFive [1]
     [Op.reserve 10 1 1 2, Op.markPaid 20 1, Op.cancel "用户主动取消" 1,
      Op.sweep 30 [1]] (by decide) (by decide) (by decide)⟩

/-- Claim C2: for an activity with `availableStock ≤ totalStock` and a
quantity ≥ 1 (on a well-formed row, so that the model-level validation run by
`save` passes), `rollback_stock` sets the stock to
`min(availableStock + quantity, totalStock)`, and re-delivering it any number
of times never pushes the stock above `totalStock`. -/
theorem c2_rollback_clamped_and_idempotent (q now : Nat) (a : Activity)
    (hstock : a.available_stock ≤ a.total_stock) (hq : 1 ≤ q)
    (hid0 : a.id ≠ 0) (hse : a.start_time < a.end_time)
    (hpr : a.seckill_price = 0 ∨ a.original_price = 0 ∨
      a.seckill_price < a.original_price) :
    (rollback_stock a.id q now a).2.available_stock =
      min (a.available_stock + q) a.total_stock ∧
    ∀ n, (iterateRollback a.id q now n a).available_stock ≤ a.total_stock := by
  have hq0 : q ≠ 0 := by omega
  refine ⟨(rollback_stock_step q now a hid0 hq0 hse hpr).1, ?_⟩
  have key : ∀ n (b : Activity), b.id = a.id → b.start_time = a.start_time →
      b.end_time = a.end_time → b.seckill_price = a.seckill_price →
      b.original_price = a.original_price → b.total_stock = a.total_stock →
      b.available_stock ≤ a.total_stock →
      (iterateRollback a.id q now n b).available_stock ≤ a.total_stock := by
    intro n
    induction n with
    | zero => intro b _ _ _ _ _ _ h7; exact h7
    | succ m ih =>
      intro b h1 h2 h3 h4 h5 h6 h7
      show (iterateRollback a.id q now m
        (rollback_stock a.id q now b).2).available_stock ≤ a.total_stock
      have hb := rollback_stock_step q now b (by rw [h1]; exact hid0) hq0
        (by rw [h2, h3]; exact hse) (by rw [h4, h5]; exact hpr)
      nth_rewrite 2 [show a.id = b.id from h1.symm]
      refine ih (rollback_stock b.id q now b).2 ?_ ?_ ?_ ?_ ?_ ?_ ?_
      · rw [hb.2.2.1, h1]
      · rw [hb.2.2.2.1, h2]
      · rw [hb.2.2.2.2.1, h3]
      · rw [hb.2.2.2.2.2.1, h4]
      · rw [hb.2.2.2.2.2.2, h5]
      · rw [hb.2.1, h6]
      · rw [hb.1, h6]
        omega
  intro n
  exact key n a rfl rfl rfl rfl rfl rfl hstock

/-- Witness for C2 at a concrete activity: one rollback of 3 units lands on
`min(5 + 3, 5) = 5`, and four re-deliveries stay at the ceiling. -/
theorem c2_rollback_witness :
    actFive.available_stock ≤ actFive.total_stock ∧ 1 ≤ 3 ∧
    (rollback_stock actFive.id 3 50 actFive).2.available_stock =
      min (actFive.available_stock + 3) actFive.total_stock ∧
    (iterateRollback actFive.id 3 50 4 actFive).available_stock ≤
      actFive.total_stock :=
  ⟨by decide, by decide,
   (c2_rollback_clamped_and_idempotent 3 50 actFive (by decide) (by decide)
     (by decide) (by decide) (by decide)).1,
   (c2_rollback_clamped_and_idempotent 3 50 actFive (by decide) (by decide)
     (by decide) (by decide) (by decide)).2 4⟩

/-- Claim C3: when an order already exists for the (user, activity) pair, an
otherwise-valid second attempt through `create_seckill_order` quotes the
existing order id in its result and leaves the store untouched, and a
duplicate intake delivery through `process_seckill_order_from_go` is
acknowledged with success, quoting the existing order id, again without
creating a second order. -/
theorem c3_duplicate_reservation_idempotent (now q : Nat) (s : State)
    (ex : Order) (msg : GoOrderMessage)
    (hfind : s.orders.find? (fun o => o.user_id == msg.user_id &&
      o.activity_id == s.activity.id) = some ex)
    (hgo : msg.order_id ≠ 0) (huid0 : msg.user_id ≠ 0)
    (haid : msg.activity_id = s.activity.id) (haid0 : s.activity.id ≠ 0)
    (huser : msg.user_id ∈ s.users)
    (hactive : s.activity.is_active now = true)
    (hstock : q ≤ s.activity.available_stock) :
    (createSeckillOrder now msg.user_id s.activity.id q s).1.order_id =
      some ex.id ∧
    (createSeckillOrder now msg.user_id s.activity.id q s).2 = s ∧
    (processSeckillOrderFromGo now msg s).1.success = true ∧
    (processSeckillOrderFromGo now msg s).1.order_id = some ex.id ∧
    (processSeckillOrderFromGo now msg s).2 = s := by
  have hcreate : createSeckillOrder now msg.user_id s.activity.id q s =
      (⟨false, some "您已经购买过该活动商品", some ex.id, none, none⟩, s) := by
    unfold createSeckillOrder
    rw [if_neg (not_not_intro ⟨huser, rfl⟩), if_neg (by simp [hactive]),
      if_neg (by omega), hfind]
  have hproc : processSeckillOrderFromGo now msg s =
      (⟨true, none, some ex.id, msg.order_id⟩, s) := by
    unfold processSeckillOrderFromGo
    rw [if_neg (by
        simp only [haid]
        intro hor
        rcases hor with h | h | h
        · exact hgo h
        · exact huid0 h
        · exact haid0 h),
      if_neg (not_not_intro ⟨huser, haid⟩), hfind]
  rw [hcreate, hproc]
  exact ⟨rfl, rfl, rfl, rfl, rfl⟩

/-- Witness for C3 at a concrete duplicated pair. -/
theorem c3_duplicate_reservation_witness :
    (createSeckillOrder 20 1 1 1 stDup).1.order_id = some 1 ∧
    (createSeckillOrder 20 1 1 1 stDup).2 = stDup ∧
    (processSeckillOrderFromGo 20 ⟨43, 1, 1, 1, 9⟩ stDup).1.success = true ∧
    (processSeckillOrderFromGo 20 ⟨43, 1, 1, 1, 9⟩ stDup).1.order_id =
      some 1 ∧
    (processSeckillOrderFromGo 20 ⟨43, 1, 1, 1, 9⟩ stDup).2 = stDup :=
  c3_duplicate_reservation_idempotent 20 1 stDup ordPending ⟨43, 1, 1, 1, 9⟩
    (by decide) (by decide) (by decide) (by decide) (by decide) (by decide)
    (by decide) (by decide)

/-- Claim C4, counterexample: reserve(user 1, qty 1) succeeds, a cancellation
request is issued for the order, and the second reserve(user 1, qty 1) does
NOT succeed — `create_seckill_order` matches the existing order regardless of
its status (and the cancellation itself fails, see C7), so it reports the
already-purchased error, quotes order 1, and creates no second order. -/
theorem c4_second_reserve_after_cancel_fails :
    (createSeckillOrder 10 1 1 1 (initState [1] actFive)).1.success = true ∧
    (createSeckillOrder 20 1 1 1 (runOps (initState [1] actFive)
      [Op.reserve 10 1 1 1,
       Op.cancel "用户主动取消" 1])).1.success = false ∧
    (createSeckillOrder 20 1 1 1 (runOps (initState [1] actFive)
      [Op.reserve 10 1 1 1,
       Op.cancel "用户主动取消" 1])).2.orders.length = 1 := by
  decide

/-- Claim C4 (amended): after reserve(user 1, activity A, qty 1) and a
subsequent cancellation request for that order, a second
reserve(user 1, activity A, qty 1) is rejected as a duplicate — the
(user, activity) uniqueness slot is not freed — quoting the first order's id
and leaving the store unchanged. -/
theorem c4_cancellation_keeps_uniqueness_slot :
    (createSeckillOrder 20 1 1 1 (runOps (initState [1] actFive)
      [Op.reserve 10 1 1 1, Op.cancel "用户主动取消" 1])).1 =
      ⟨false, some "您已经购买过该活动商品", some 1, none, none⟩ ∧
    (createSeckillOrder 20 1 1 1 (runOps (initState [1] actFive)
      [Op.reserve 10 1 1 1, Op.cancel "用户主动取消" 1])).2 =
      runOps (initState [1] actFive)
        [Op.reserve 10 1 1 1, Op.cancel "用户主动取消" 1] ∧
    ((runOps (initState [1] actFive)
      [Op.reserve 10 1 1 1, Op.cancel "用户主动取消" 1]).orders.map
        (fun o => o.user_id)) = [1] := by
  decide

/-- Claim C5, counterexample: a well-formed, non-duplicate intake message with
quantity 1 is processed successfully, yet the activity's `available_stock`
after processing is NOT the claimed decremented value — the intake path never
writes the activity row. -/
theorem c5_intake_does_not_decrement :
    (processSeckillOrderFromGo 10 ⟨42, 1, 1, 1, 3⟩
      (initState [1] actFive)).1.success = true ∧
    ¬ ((processSeckillOrderFromGo 10 ⟨42, 1, 1, 1, 3⟩
        (initState [1] actFive)).2.activity.available_stock =
      (initState [1] actFive).activity.available_stock - 1) := by
  decide

/-- Claim C5 (amended): processing a well-formed, non-duplicate intake message
whose user and activity exist appends a single order priced at the activity's
own `seckill_price` — the message's `price` field is ignored for pricing, as
the conclusion does not depend on `msg.price` — with
`total_amount = seckill_price * quantity` and status `pending_payment`, and
leaves the activity row (in particular `available_stock`) unchanged: no stock
decrement happens on the intake path. -/
theorem c5_intake_prices_from_activity (now : Nat) (s : State)
    (msg : GoOrderMessage)
    (hgo : msg.order_id ≠ 0) (huid0 : msg.user_id ≠ 0)
    (haid : msg.activity_id = s.activity.id) (haid0 : s.activity.id ≠ 0)
    (huser : msg.user_id ∈ s.users)
    (hfind : s.orders.find? (fun o => o.user_id == msg.user_id &&
      o.activity_id == s.activity.id) = none) :
    (processSeckillOrderFromGo now msg s).1.success = true ∧
    (processSeckillOrderFromGo now msg s).2.activity = s.activity ∧
    (processSeckillOrderFromGo now msg s).2.orders = s.orders ++
      [newOrder now s.next_order_id msg.user_id s.activity msg.quantity] ∧
    (newOrder now s.next_order_id msg.user_id s.activity
      msg.quantity).seckill_price = s.activity.seckill_price ∧
    (newOrder now s.next_order_id msg.user_id s.activity
      msg.quantity).total_amount = s.activity.seckill_price * msg.quantity ∧
    (newOrder now s.next_order_id msg.user_id s.activity
      msg.quantity).status = .pendingPayment := by
  have hproc : processSeckillOrderFromGo now msg s =
      (⟨true, none,
        some (newOrder now s.next_order_id msg.user_id s.activity
          msg.quantity).id, msg.order_id⟩,
       { s with
          orders := s.orders ++
            [newOrder now s.next_order_id msg.user_id s.activity msg.quantity],
          next_order_id := s.next_order_id + 1 }) := by
    unfold processSeckillOrderFromGo
    rw [if_neg (by
        simp only [haid]
        intro hor
        rcases hor with h | h | h
        · exact hgo h
        · exact huid0 h
        · exact haid0 h),
      if_neg (not_not_intro ⟨huser, haid⟩), hfind]
  rw [hproc]
  exact ⟨rfl, rfl, rfl,
    (newOrder_fields now s.next_order_id msg.user_id s.activity
      msg.quantity).2.2.2.1,
    (newOrder_fields now s.next_order_id msg.user_id s.activity
      msg.quantity).2.2.2.2.2.2.1,
    (newOrder_fields now s.next_order_id msg.user_id s.activity
      msg.quantity).2.2.1⟩

/-- Witness for C5 (amended) at a concrete message whose carried price (3)
differs from the activity's `seckill_price` (100). -/
theorem c5_intake_prices_witness :
    (processSeckillOrderFromGo 10 ⟨42, 1, 1, 2, 3⟩
      (initState [1] actFive)).1.success = true ∧
    (processSeckillOrderFromGo 10 ⟨42, 1, 1, 2, 3⟩
      (initState [1] actFive)).2.activity =
      (initState [1] actFive).activity ∧
    (processSeckillOrderFromGo 10 ⟨42, 1, 1, 2, 3⟩
      (initState [1] actFive)).2.orders =
      (initState [1] actFive).orders ++
        [newOrder 10 (initState [1] actFive).next_order_id 1
          (initState [1] actFive).activity 2] ∧
    (newOrder 10 (initState [1] actFive).next_order_id 1
      (initState [1] actFive).activity 2).seckill_price =
      (initState [1] actFive).activity.seckill_price ∧
    (newOrder 10 (initState [1] actFive).next_order_id 1
      (initState [1] actFive).activity 2).total_amount =
      (initState [1] actFive).activity.seckill_price * 2 ∧
    (newOrder 10 (initState [1] actFive).next_order_id 1
      (initState [1] actFive).activity 2).status = OStatus.pendingPayment :=
  c5_intake_prices_from_activity 10 (initState [1] actFive) ⟨42, 1, 1, 2, 3⟩
    (by decide) (by decide) (by decide) (by decide) (by decide) (by decide)

/-- Claim C6: `mark_paid` succeeds if and only if the order is
`pending_payment` with a deadline set and the current time strictly before it;
on success it sets `paid`, records `paid_at` and clears the deadline, and on
failure it returns the order with every field unchanged. -/
theorem c6_mark_paid_guard (now : Nat) (o : Order) :
    ((o.mark_paid now).1 = true ↔
      o.status = .pendingPayment ∧
        ∃ d, o.payment_deadline = some d ∧ now < d) ∧
    ((o.mark_paid now).1 = true →
      (o.mark_paid now).2.status = .paid ∧
      (o.mark_paid now).2.paid_at = some now ∧
      (o.mark_paid now).2.payment_deadline = none) ∧
    ((o.mark_paid now).1 = false → (o.mark_paid now).2 = o) := by
  refine ⟨?_, ?_, ?_⟩
  · rw [← Order.can_pay_iff]
    unfold Order.mark_paid
    cases hc : o.can_pay now with
    | true => simp [hc]
    | false => simp [hc]
  · intro h
    unfold Order.mark_paid at h ⊢
    cases hc : o.can_pay now with
    | false => simp [hc] at h
    | true => exact ⟨rfl, rfl, rfl⟩
  · intro h
    unfold Order.mark_paid at h ⊢
    cases hc : o.can_pay now with
    | false => rw [if_neg (by simp [hc])]
    | true => simp [hc] at h

/-- Witness for C6: a pending order with deadline 100 marked paid at time 50. -/
theorem c6_mark_paid_witness :
    (Order.mark_paid 50 ordPending).2.status = OStatus.paid ∧
    (Order.mark_paid 50 ordPending).2.paid_at = some 50 ∧
    (Order.mark_paid 50 ordPending).2.payment_deadline = none :=
  (c6_mark_paid_guard 50 ordPending).2.1 (by decide)

/-- Claim C7, evaluation at the failing input: on a `pending_payment` order
(the one state from which the claim says cancellation succeeds),
`cancel_order` returns `False`, leaves the order pending, touches no stock,
and enqueues a `rollback_stock` task — the `try` block dies on the unresolved
name `SeckillActivity` (never imported in `apps/orders/models.py`), so the
documented cancel-and-restore path is unreachable.  On any other status it
returns `False` without enqueuing anything. -/
theorem c7_cancel_order_never_succeeds :
    ordPending.status = OStatus.pendingPayment ∧
    ordPending.cancel_order "用户主动取消" =
      (false, ordPending, [⟨1, 2, 1⟩]) ∧
    ordPaid.cancel_order "用户主动取消" = (false, ordPaid, []) := by
  decide

/-- Claim C8, evaluation: the re-check guards behave as claimed — a paid
order and a not-yet-expired order are left untouched and the sweep counts
them as skipped, not failed — but at the failing input (order 1: pending,
deadline 100, fired at time 200) the order is NOT cancelled: the task reports
the cancel-failed outcome, the order stays pending and a `rollback_stock`
task is enqueued, because `cancel_order` always fails (see C7). -/
theorem c8_timeout_skips_and_failing_input :
    cancelOrderTask 200 2 stTwo = (.statusNotCancellable, stTwo) ∧
    cancelOrderTask 50 1 stTwo = (.notYetExpired, stTwo) ∧
    (cancelExpiredOrders 50 [1, 2] stTwo).1 = ⟨0, 0, 2⟩ ∧
    (cancelExpiredOrders 50 [1, 2] stTwo).2 = stTwo ∧
    (cancelOrderTask 200 1 stTwo).1 = CancelTaskOutcome.cancelFailed ∧
    (cancelOrderTask 200 1 stTwo).2.orders = stTwo.orders ∧
    (cancelOrderTask 200 1 stTwo).2.activity = stTwo.activity ∧
    (cancelOrderTask 200 1 stTwo).2.rollback_queue = [⟨1, 2, 1⟩] := by
  decide

/-- Claim C9, counterexample: the detection arithmetic reports the drifted
activity as claimed, but the correction is NOT executed under the same
exclusive-lock discipline as reservation: `create_seckill_order` fetches the
activity with `select_for_update`, while `_fix_activity_stock` writes it
inside a bare `transaction.atomic()` with no row lock. -/
theorem c9_fix_lacks_reservation_lock :
    checkActivityConsistency actFive [ordPending, ordPaid] =
      some ⟨1, 5, 1, 2, 2, 5, 3⟩ ∧
    createSeckillOrderLocksActivityRow = true ∧
    fixActivityStockLocksActivityRow = false ∧
    fixActivityStockLocksActivityRow ≠ createSeckillOrderLocksActivityRow := by
  decide

/-- Claim C9 (amended): the auditor reports an inconsistency exactly when
`theoretical = totalStock - paidSum - pendingSum` differs from
`availableStock`, with all counts and `difference = actual - theoretical`;
when correction is explicitly requested (fix and not dry-run) it sets
`availableStock = theoretical` (provided the value passes the stored row's
validation, i.e. is non-negative, on a well-formed row) inside a transaction
— but without the `select_for_update` row lock that reservation uses; with no
fix requested the activity row is untouched. -/
theorem c9_auditor_detects_and_fixes (now : Nat) (fix dry_run : Bool)
    (a : Activity) (orders : List Order) :
    ((checkActivityConsistency a orders).isSome = true ↔
      theoreticalStock a orders ≠ (a.available_stock : Int)) ∧
    (∀ inc, checkActivityConsistency a orders = some inc →
      inc.activity_id = a.id ∧ inc.total_stock = a.total_stock ∧
      inc.sold_quantity = soldQuantity a.id orders ∧
      inc.pending_quantity = pendingQuantity a.id orders ∧
      inc.theoretical_stock = theoreticalStock a orders ∧
      inc.actual_stock = a.available_stock ∧
      inc.difference = (a.available_stock : Int) - theoreticalStock a orders) ∧
    ((fix && !dry_run) = false →
      (checkAndMaybeFix now fix dry_run a orders).2 = a) ∧
    (∀ inc, checkActivityConsistency a orders = some inc →
      (fix && !dry_run) = true → 0 ≤ theoreticalStock a orders →
      a.start_time < a.end_time →
      (a.seckill_price = 0 ∨ a.original_price = 0 ∨
        a.seckill_price < a.original_price) →
      (checkAndMaybeFix now fix dry_run a orders).2.available_stock =
        (theoreticalStock a orders).toNat) := by
  refine ⟨?_, ?_, ?_, ?_⟩
  · unfold checkActivityConsistency
    by_cases hc : theoreticalStock a orders = (a.available_stock : Int)
    · rw [if_pos hc]
      simp [hc]
    · rw [if_neg hc]
      simp [hc]
  · intro inc hinc
    unfold checkActivityConsistency at hinc
    by_cases hc : theoreticalStock a orders = (a.available_stock : Int)
    · rw [if_pos hc] at hinc
      cases hinc
    · rw [if_neg hc] at hinc
      obtain rfl := (Option.some_inj.mp hinc).symm
      exact ⟨rfl, rfl, rfl, rfl, rfl, rfl, rfl⟩
  · intro hng
    unfold checkAndMaybeFix
    cases hck : checkActivityConsistency a orders with
    | none => rfl
    | some inc =>
      show (if (fix && !dry_run) = true then fixActivityStock now a inc
        else a) = a
      rw [if_neg (by simp [hng])]
  · intro inc hinc hfx h0 hse hpr
    have hfields : inc.theoretical_stock = theoreticalStock a orders := by
      unfold checkActivityConsistency at hinc
      by_cases hc : theoreticalStock a orders = (a.available_stock : Int)
      · rw [if_pos hc] at hinc
        cases hinc
      · rw [if_neg hc] at hinc
        obtain rfl := (Option.some_inj.mp hinc).symm
        rfl
    have hle : (theoreticalStock a orders).toNat ≤ a.total_stock := by
      have hub : theoreticalStock a orders ≤ (a.total_stock : Int) := by
        unfold theoreticalStock
        omega
      omega
    have hclean : Activity.full_clean
        { a with available_stock := (theoreticalStock a orders).toNat } =
        true := by
      unfold Activity.full_clean
      rcases hpr with h | h | h <;> simp [hse, hle, h]
    have hsave : Activity.save now
        { a with available_stock := (theoreticalStock a orders).toNat } =
        some (Activity.update_status now
          { a with available_stock := (theoreticalStock a orders).toNat }) := by
      unfold Activity.save
      rw [if_pos hclean]
    unfold checkAndMaybeFix
    rw [hinc]
    show (if (fix && !dry_run) = true then fixActivityStock now a inc
      else a).available_stock = (theoreticalStock a orders).toNat
    rw [if_pos hfx]
    unfold fixActivityStock
    rw [hfields, if_pos h0, hsave]
    obtain ⟨st, hst⟩ := Activity.update_status_shape now
      { a with available_stock := (theoreticalStock a orders).toNat }
    rw [hst]

/-- Witness for C9 (amended): fixing the drifted concrete state lands
`available_stock` on the theoretical value 2. -/
theorem c9_auditor_witness :
    (checkAndMaybeFix 400 true false actFive
      [ordPending, ordPaid]).2.available_stock = 2 := by
  have h := (c9_auditor_detects_and_fixes 400 true false actFive
    [ordPending, ordPaid]).2.2.2 ⟨1, 5, 1, 2, 2, 5, 3⟩ (by decide) (by decide)
    (by decide) (by decide) (by decide)
  rw [h]
  decide

/-- Claim C10: when the transaction inside `cancel_order` raises (which the
unresolved `SeckillActivity` name makes unconditional on the pending path),
the call returns `False`, the order rows and the activity row are unchanged —
the order is still `pending_payment` — and a `rollback_stock` task for the
same activity and quantity is enqueued; running that task later restores
stock (clamped) for an order that was never cancelled. -/
theorem c10_failed_cancel_still_enqueues_rollback (reason : String)
    (oid : Nat) (s : State) (o : Order)
    (hfind : s.orders.find? (fun x => x.id == oid) = some o)
    (hpending : o.status = OStatus.pendingPayment)
    (hnd : (s.orders.map (fun x => x.id)).Nodup) :
    (cancelOrderOp reason oid s).1 = false ∧
    (cancelOrderOp reason oid s).2.orders = s.orders ∧
    (cancelOrderOp reason oid s).2.activity = s.activity ∧
    (cancelOrderOp reason oid s).2.rollback_queue =
      s.rollback_queue ++ [⟨o.activity_id, o.quantity, o.id⟩] ∧
    ∀ (t : Nat) (a : Activity), a.id = o.activity_id → a.id ≠ 0 →
      o.quantity ≠ 0 → a.start_time < a.end_time →
      (a.seckill_price = 0 ∨ a.original_price = 0 ∨
        a.seckill_price < a.original_price) →
      (rollback_stock o.activity_id o.quantity t a).2.available_stock =
        min (a.available_stock + o.quantity) a.total_stock := by
  have hcc : o.can_cancel = true := by
    unfold Order.can_cancel
    simp [hpending]
  have hco : o.cancel_order reason =
      (false, o, [⟨o.activity_id, o.quantity, o.id⟩]) := by
    rw [cancel_order_spec]
    simp [hcc]
  refine ⟨?_, ?_, ?_, ?_, ?_⟩
  · unfold cancelOrderOp
    rw [hfind]
    show (Order.cancel_order reason o).1 = false
    rw [hco]
  · unfold cancelOrderOp
    rw [hfind]
    show updateOrderRow oid (Order.cancel_order reason o).2.1 s.orders =
      s.orders
    rw [hco]
    exact updateOrderRow_self s.orders oid o hnd hfind
  · unfold cancelOrderOp
    rw [hfind]
  · unfold cancelOrderOp
    rw [hfind]
    show s.rollback_queue ++ (Order.cancel_order reason o).2.2 =
      s.rollback_queue ++ [⟨o.activity_id, o.quantity, o.id⟩]
    rw [hco]
  · intro t a h1 h2 h3 h4 h5
    rw [← h1]
    exact (rollback_stock_step o.quantity t a h2 h3 h4 h5).1

/-- Witness for C10 at the concrete pending order of `stTwo`. -/
theorem c10_failed_cancel_witness :
    (cancelOrderOp "用户主动取消" 1 stTwo).1 = false ∧
    (cancelOrderOp "用户主动取消" 1 stTwo).2.orders = stTwo.orders ∧
    (cancelOrderOp "用户主动取消" 1 stTwo).2.rollback_queue =
      stTwo.rollback_queue ++
        [⟨ordPending.activity_id, ordPending.quantity, ordPending.id⟩] ∧
    (rollback_stock ordPending.activity_id ordPending.quantity 300
      actFive).2.available_stock =
      min (actFive.available_stock + ordPending.quantity)
        actFive.total_stock := by
  have h := c10_failed_cancel_still_enqueues_rollback "用户主动取消" 1 stTwo
    ordPending (by decide) (by decide) (by decide)
  exact ⟨h.1, h.2.1, h.2.2.2.1, h.2.2.2.2 300 actFive (by decide) (by decide)
    (by decide) (by decide) (by decide)⟩

end FlashSku
